import Mathlib

/-!
Shallow embedding of the `proc` stat decoder of Soul-Mate/procmon
(file `src/unnamed/part_000`): the `StatStream` tokenizer, the
`fieldParseMap` schema table with its `*Cover` numeric conversions
(thin wrappers around Go's `strconv.ParseInt` / `strconv.ParseUint`
with base 10 and a declared bit width), the `StatField.fill` dispatcher
and the `Stat.Parse` driver loop.

Bytes are modelled as `Nat` (Go `byte` values 0..255), byte strings as
`List Nat`.  Go's `int32`/`int64` fields are modelled as `Int`, the
unsigned fields as `Nat`; the conversions perform the same explicit
range checks as `strconv`, so no wrap-around is hidden.  Out-of-bounds
slice indexing (a Go runtime panic) is modelled as an explicit `panic`
outcome.  Reading the backing file (`ioutil.ReadFile`) is the external
byte-acquisition step and is outside the embedding: `parse` starts from
the byte buffer that read produced.
-/

namespace ProcStat

/-- Error kinds of Go `strconv` as surfaced by the `*Cover` helpers:
`ErrSyntax` is modelled as `malformed`, `ErrRange` as `outOfRange`
(the spec's `DecodeError::Malformed` / `DecodeError::OutOfRange`). -/
inductive NumError where
  | malformed
  | outOfRange
deriving DecidableEq

/-- ASCII decimal digit test, `'0' <= c && c <= '9'` in `strconv`. -/
def digit? (b : Nat) : Bool := 48 ≤ b && b ≤ 57

/-- The scan loop of `strconv.ParseUint(s, 10, bit)`: each byte must be
a decimal digit (anything else returns `ErrSyntax` at once), and as soon
as the accumulated value exceeds `2^bit - 1` the loop returns `ErrRange`
without looking at the remaining bytes — Go checks `n1 > maxVal` inside
the loop and returns immediately. -/
def parseUintLoop (bit : Nat) : List Nat → Nat → Except NumError Nat
  | [], n => .ok n
  | c :: rest, n =>
    if digit? c then
      if 2 ^ bit - 1 < n * 10 + (c - 48) then .error .outOfRange
      else parseUintLoop bit rest (n * 10 + (c - 48))
    else .error .malformed

/-- `strconv.ParseUint(s, 10, bit)`: the empty string is `ErrSyntax`,
otherwise the scan loop runs from 0.  No sign byte is accepted. -/
def goParseUint (bit : Nat) (s : List Nat) : Except NumError Nat :=
  match s with
  | [] => .error .malformed
  | _ => parseUintLoop bit s 0

/-- `strconv.ParseInt(s, 10, bit)`: empty is `ErrSyntax`; an optional
leading `'+'` (43) or `'-'` (45) is stripped; the rest goes through
`ParseUint` with the same bit width (its errors propagate: on `ErrRange`
Go's clamped magnitude is `2^bit - 1`, which always trips the signed
cutoff check as well, so the overall error stays `ErrRange`); finally
the signed cutoff `2^(bit-1)` is enforced. -/
def goParseInt (bit : Nat) (s : List Nat) : Except NumError Int :=
  match s with
  | [] => .error .malformed
  | c :: rest =>
    match goParseUint bit (if c = 43 ∨ c = 45 then rest else c :: rest) with
    | .error e => .error e
    | .ok un =>
      if c = 45 then
        if 2 ^ (bit - 1) < un then .error .outOfRange else .ok (-(un : Int))
      else
        if 2 ^ (bit - 1) ≤ un then .error .outOfRange else .ok (un : Int)

/-- `int16Cover`: `strconv.ParseInt(s, 10, 16)` (on error the Go helper
returns value 0 together with the error; only the error is observable
through `Stat.Parse`, which discards the record on failure). -/
def int16Cover (s : List Nat) : Except NumError Int := goParseInt 16 s

/-- `uint16Cover`: `strconv.ParseUint(s, 10, 16)`. -/
def uint16Cover (s : List Nat) : Except NumError Nat := goParseUint 16 s

/-- `int32Cover`: `strconv.ParseInt(s, 10, 32)`. -/
def int32Cover (s : List Nat) : Except NumError Int := goParseInt 32 s

/-- `uint32Cover`: `strconv.ParseUint(s, 10, 32)`. -/
def uint32Cover (s : List Nat) : Except NumError Nat := goParseUint 32 s

/-- `int64Cover`: `strconv.ParseInt(s, 10, 64)`. -/
def int64Cover (s : List Nat) : Except NumError Int := goParseInt 64 s

/-- `uint64Cover`: `strconv.ParseUint(s, 10, 64)`. -/
def uint64Cover (s : List Nat) : Except NumError Nat := goParseUint 64 s

/-- Go conversion `byte → int8` (two's complement wrap), used by
`StatTaskState(data[0])`; `StatTaskState` is declared as `int8`. -/
def toInt8 (b : Nat) : Int :=
  if b % 256 < 128 then (b % 256 : Int) else (b % 256 : Int) - 256

/-- `Running StatTaskState = 'R'`. -/
def Running : Int := 82
/-- `Sleeping StatTaskState = 'S'`. -/
def Sleeping : Int := 83
/-- `DiskSleep StatTaskState = 'D'`. -/
def DiskSleep : Int := 68
/-- `Zombie StatTaskState = 'Z'`. -/
def Zombie : Int := 90
/-- `Stopped StatTaskState = 'T'`. -/
def Stopped : Int := 84
/-- `TracingStop StatTaskState = 't'`. -/
def TracingStop : Int := 116
/-- `Dead StatTaskState = 'X'`. -/
def Dead : Int := 88
/-- `Dead2633To313 StatTaskState = 'x'`. -/
def Dead2633To313 : Int := 120
/-- `Wakekill StatTaskState = 'K'`. -/
def Wakekill : Int := 75
/-- `PagingWaking StatTaskState = 'W'`. -/
def PagingWaking : Int := 87
/-- `Parked StatTaskState = 'P'`. -/
def Parked : Int := 80

/-- The `switch StatTaskState(data[0])` of `fieldParseMap[3]`: every
named case stores the matched constant, the `default` branch stores the
raw converted byte itself. -/
def stateSwitch (b : Nat) : Int :=
  if toInt8 b = Running then Running
  else if toInt8 b = Sleeping then Sleeping
  else if toInt8 b = DiskSleep then DiskSleep
  else if toInt8 b = Zombie then Zombie
  else if toInt8 b = Stopped then Stopped
  else if toInt8 b = TracingStop then TracingStop
  else if toInt8 b = PagingWaking then PagingWaking
  else if toInt8 b = Dead then Dead
  else if toInt8 b = Dead2633To313 then Dead2633To313
  else if toInt8 b = Wakekill then Wakekill
  else if toInt8 b = Parked then Parked
  else toInt8 b

/-- The `StatField` record of `src/unnamed/part_000`, Go zero values as
defaults (`NewStat` allocates it with `new(StatField)`).  Signed Go
fields (`int32`/`int64` and the `int8`-backed `StatTaskState`) are
`Int`, unsigned ones (`uint32`/`uint64`) are `Nat`, `Comm` is the raw
byte string. -/
structure StatField where
  Pid                 : Int := 0
  Comm                : List Nat := []
  State               : Int := 0
  PPid                : Int := 0
  PGrp                : Int := 0
  Session             : Int := 0
  TTYNR               : Int := 0
  TPGid               : Int := 0
  TaskFlags           : Nat := 0
  MinFlt              : Nat := 0
  CMinFlt             : Nat := 0
  MajFlt              : Nat := 0
  CMajFlt             : Nat := 0
  UTime               : Nat := 0
  STime               : Nat := 0
  CUTime              : Int := 0
  CSTime              : Int := 0
  Priority            : Int := 0
  Nice                : Int := 0
  NumThreads          : Int := 0
  ItRealValue         : Int := 0
  StartTime           : Nat := 0
  VSize               : Nat := 0
  RSS                 : Nat := 0
  RSSLim              : Nat := 0
  StartCode           : Nat := 0
  EndCode             : Nat := 0
  StartStack          : Nat := 0
  KStkEsp             : Nat := 0
  KStkEip             : Nat := 0
  TaskPendingSig      : Nat := 0
  TaskBlockSig        : Nat := 0
  SigIgnoreSig        : Nat := 0
  SigCatchSig         : Nat := 0
  WChan               : Nat := 0
  NSwap               : Nat := 0
  CNSwap              : Nat := 0
  ExitSignal          : Int := 0
  Processor           : Int := 0
  RtPriority          : Nat := 0
  Policy              : Nat := 0
  DelayacctBlkioTicks : Nat := 0
  GuestTime           : Nat := 0
  CGuestTime          : Int := 0
  StartData           : Nat := 0
  EndData             : Nat := 0
  StartBrk            : Nat := 0
  ArgStart            : Nat := 0
  ArgEnd              : Nat := 0
  EnvStart            : Nat := 0
  EnvEnd              : Nat := 0
  ExitCode            : Int := 0
deriving DecidableEq

/-- Result of one per-position parse function: Go runtime panic
(out-of-bounds index in rule 3 on an empty token), a returned
`error`, or the mutated record. -/
inductive FillRes where
  | panic
  | err (e : NumError)
  | ok (sf : StatField)
deriving DecidableEq

/-- `sf.X, err = xxxCover(field); return` for a signed field: on error
the field write is discarded with the record (Parse returns nil). -/
def setI (r : Except NumError Int) (f : Int → StatField) : FillRes :=
  match r with
  | .error e => FillRes.err e
  | .ok v => FillRes.ok (f v)

/-- `sf.X, err = xxxCover(field); return` for an unsigned field. -/
def setN (r : Except NumError Nat) (f : Nat → StatField) : FillRes :=
  match r with
  | .error e => FillRes.err e
  | .ok v => FillRes.ok (f v)

/-- The `fieldParseMap` schema table: Go map from 1-based field
position to the parse function mutating `StatField`; `none` models a
missing key.  Each entry mirrors the corresponding closure of
`src/unnamed/part_000` lines 82–421; note that entry 13 (comment
`// cmajflt`) assigns to `sf.MajFlt`, exactly as the source does. -/
def fieldParseMap : Nat → Option (List Nat → StatField → FillRes)
  | 1 => some (fun tok sf => setI (int32Cover tok) (fun v => { sf with Pid := v }))
  | 2 => some (fun tok sf => FillRes.ok { sf with Comm := tok })
  | 3 => some (fun tok sf =>
      match tok with
      | [] => FillRes.panic
      | b :: _ => FillRes.ok { sf with State := stateSwitch b })
  | 4 => some (fun tok sf => setI (int32Cover tok) (fun v => { sf with PPid := v }))
  | 5 => some (fun tok sf => setI (int32Cover tok) (fun v => { sf with PGrp := v }))
  | 6 => some (fun tok sf => setI (int32Cover tok) (fun v => { sf with Session := v }))
  | 7 => some (fun tok sf => setI (int32Cover tok) (fun v => { sf with TTYNR := v }))
  | 8 => some (fun tok sf => setI (int32Cover tok) (fun v => { sf with TPGid := v }))
  | 9 => some (fun tok sf => setN (uint32Cover tok) (fun v => { sf with TaskFlags := v }))
  | 10 => some (fun tok sf => setN (uint64Cover tok) (fun v => { sf with MinFlt := v }))
  | 11 => some (fun tok sf => setN (uint64Cover tok) (fun v => { sf with CMinFlt := v }))
  | 12 => some (fun tok sf => setN (uint64Cover tok) (fun v => { sf with MajFlt := v }))
  | 13 => some (fun tok sf => setN (uint64Cover tok) (fun v => { sf with MajFlt := v }))
  | 14 => some (fun tok sf => setN (uint64Cover tok) (fun v => { sf with UTime := v }))
  | 15 => some (fun tok sf => setN (uint64Cover tok) (fun v => { sf with STime := v }))
  | 16 => some (fun tok sf => setI (int64Cover tok) (fun v => { sf with CUTime := v }))
  | 17 => some (fun tok sf => setI (int64Cover tok) (fun v => { sf with CSTime := v }))
  | 18 => some (fun tok sf => setI (int64Cover tok) (fun v => { sf with Priority := v }))
  | 19 => some (fun tok sf => setI (int64Cover tok) (fun v => { sf with Nice := v }))
  | 20 => some (fun tok sf => setI (int64Cover tok) (fun v => { sf with NumThreads := v }))
  | 21 => some (fun tok sf => setI (int64Cover tok) (fun v => { sf with ItRealValue := v }))
  | 22 => some (fun tok sf => setN (uint64Cover tok) (fun v => { sf with StartTime := v }))
  | 23 => some (fun tok sf => setN (uint64Cover tok) (fun v => { sf with VSize := v }))
  | 24 => some (fun tok sf => setN (uint64Cover tok) (fun v => { sf with RSS := v }))
  | 25 => some (fun tok sf => setN (uint64Cover tok) (fun v => { sf with RSSLim := v }))
  | 26 => some (fun tok sf => setN (uint64Cover tok) (fun v => { sf with StartCode := v }))
  | 27 => some (fun tok sf => setN (uint64Cover tok) (fun v => { sf with EndCode := v }))
  | 28 => some (fun tok sf => setN (uint64Cover tok) (fun v => { sf with StartStack := v }))
  | 29 => some (fun tok sf => setN (uint64Cover tok) (fun v => { sf with KStkEsp := v }))
  | 30 => some (fun tok sf => setN (uint64Cover tok) (fun v => { sf with KStkEip := v }))
  | 31 => some (fun tok sf => setN (uint64Cover tok) (fun v => { sf with TaskPendingSig := v }))
  | 32 => some (fun tok sf => setN (uint64Cover tok) (fun v => { sf with TaskBlockSig := v }))
  | 33 => some (fun tok sf => setN (uint64Cover tok) (fun v => { sf with SigIgnoreSig := v }))
  | 34 => some (fun tok sf => setN (uint64Cover tok) (fun v => { sf with SigCatchSig := v }))
  | 35 => some (fun tok sf => setN (uint64Cover tok) (fun v => { sf with WChan := v }))
  | 36 => some (fun tok sf => setN (uint64Cover tok) (fun v => { sf with NSwap := v }))
  | 37 => some (fun tok sf => setN (uint64Cover tok) (fun v => { sf with CNSwap := v }))
  | 38 => some (fun tok sf => setI (int32Cover tok) (fun v => { sf with ExitSignal := v }))
  | 39 => some (fun tok sf => setI (int32Cover tok) (fun v => { sf with Processor := v }))
  | 40 => some (fun tok sf => setN (uint32Cover tok) (fun v => { sf with RtPriority := v }))
  | 41 => some (fun tok sf => setN (uint32Cover tok) (fun v => { sf with Policy := v }))
  | 42 => some (fun tok sf => setN (uint64Cover tok) (fun v => { sf with DelayacctBlkioTicks := v }))
  | 43 => some (fun tok sf => setN (uint64Cover tok) (fun v => { sf with GuestTime := v }))
  | 44 => some (fun tok sf => setI (int64Cover tok) (fun v => { sf with CGuestTime := v }))
  | 45 => some (fun tok sf => setN (uint64Cover tok) (fun v => { sf with StartData := v }))
  | 46 => some (fun tok sf => setN (uint64Cover tok) (fun v => { sf with EndData := v }))
  | 47 => some (fun tok sf => setN (uint64Cover tok) (fun v => { sf with StartBrk := v }))
  | 48 => some (fun tok sf => setN (uint64Cover tok) (fun v => { sf with ArgStart := v }))
  | 49 => some (fun tok sf => setN (uint64Cover tok) (fun v => { sf with ArgEnd := v }))
  | 50 => some (fun tok sf => setN (uint64Cover tok) (fun v => { sf with EnvStart := v }))
  | 51 => some (fun tok sf => setN (uint64Cover tok) (fun v => { sf with EnvEnd := v }))
  | 52 => some (fun tok sf => setI (int32Cover tok) (fun v => { sf with ExitCode := v }))
  | _ => none

/-- `StatField.fill(field, progress)`: look up the position in
`fieldParseMap`; a missing position is silently skipped (`return nil`
with the record untouched), otherwise the parse function runs and its
error, if any, is returned. -/
def fill (tok : List Nat) (pos : Nat) (sf : StatField) : FillRes :=
  match fieldParseMap pos with
  | some f => f tok sf
  | none => FillRes.ok sf

/-- Result of one `StatStream.next()` call: `panic` models the Go
out-of-bounds index in `isEOF`/`isSpace` when the cursor reaches the
buffer length (the suffix of remaining bytes is empty), and
`ret tok eof rest` models the return `(string(buf), err)` where `eof`
tells whether `err` is `erreof` and `rest` is the buffer suffix from
the updated cursor. -/
inductive NextRes where
  | panic
  | ret (tok : List Nat) (eof : Bool) (rest : List Nat)
deriving DecidableEq

/-- The loop body of `StatStream.next()`.  The state is the suffix of
the buffer from the cursor (`cursor == length` iff the suffix is `[]`).
`isEOF` fires on a newline byte and returns the accumulated buffer with
`erreof`, leaving the cursor on the newline; a space returns the buffer
with a nil error, cursor past the space; any other byte is accumulated.
An empty suffix means `(*ss.data)[ss.cur]` indexes out of bounds. -/
def nextFrom (buf : List Nat) : List Nat → NextRes
  | [] => NextRes.panic
  | b :: rest =>
    if b = 10 then NextRes.ret buf true (b :: rest)
    else if b = 32 then NextRes.ret buf false rest
    else nextFrom (buf ++ [b]) rest

/-- `StatStream.next()` starting with an empty scratch buffer. -/
def next (rest : List Nat) : NextRes := nextFrom [] rest

/-- Outcome of `Stat.Parse` after the file bytes are in memory:
`panic` is a Go runtime panic from the tokenizer, `err` is
`return nil, err` (no record accompanies the error), `ok` is
`return s.fields, nil`.  `spin` is reported when the iteration fuel is
exhausted and never occurs for the fuel `parse` supplies. -/
inductive ParseOutcome where
  | panic
  | spin
  | err (e : NumError)
  | ok (sf : StatField)
deriving DecidableEq

/-- The `for` loop of `Stat.Parse`: call `next`, ignore its error value
(`field, _ := s.stream.next()`), stop with the accumulated record as
soon as the token is the empty string, otherwise `fill` at the current
1-based position, returning any fill error immediately.  `fuel` bounds
the number of iterations; each iteration either stops, panics, or
consumes at least the token and its space from the suffix, except the
iteration that returns the final pre-newline token, which is followed
directly by a stopping iteration — so `length + 2` fuel always
suffices. -/
def parseLoop : Nat → List Nat → Nat → StatField → ParseOutcome
  | 0, _, _, _ => ParseOutcome.spin
  | fuel + 1, rest, pos, sf =>
    match next rest with
    | NextRes.panic => ParseOutcome.panic
    | NextRes.ret tok _eof restNew =>
      if tok = [] then ParseOutcome.ok sf
      else
        match fill tok pos sf with
        | FillRes.panic => ParseOutcome.panic
        | FillRes.err e => ParseOutcome.err e
        | FillRes.ok sfNew => parseLoop fuel restNew (pos + 1) sfNew

/-- `Stat.Parse` on a byte buffer already read into memory: cursor 0,
position counter 1, a fresh zero `StatField` (`NewStat`). -/
def parse (data : List Nat) : ParseOutcome :=
  parseLoop (data.length + 2) data 1 {}

/-- Tokens returned by repeated `StatStream.next()` calls up to (and
excluding) the first no-more-tokens signal, i.e. the first
`("", erreof)` return.  Empty tokens returned with a nil error (between
two consecutive delimiters) are counted as returned tokens.  `none`
models a runtime panic or fuel exhaustion. -/
def collectTokens : Nat → List Nat → Option (List (List Nat))
  | 0, _ => none
  | fuel + 1, rest =>
    match next rest with
    | NextRes.panic => none
    | NextRes.ret tok eof restNew =>
      if eof = true ∧ tok = [] then some []
      else (collectTokens fuel restNew).map (fun ts => tok :: ts)

/-- All tokens the tokenizer yields on a buffer before signalling
no-more-tokens (fuel `length + 2` suffices as for `parse`). -/
def tokenizerTokens (data : List Nat) : Option (List (List Nat)) :=
  collectTokens (data.length + 2) data

/-- Reference buffer builder: the given tokens joined by single spaces
and terminated by a newline. -/
def joinTokens : List (List Nat) → List Nat
  | [] => [10]
  | [t] => t ++ [10]
  | t :: ts => t ++ 32 :: joinTokens ts

/-- Reference count, from the spec's words: the number of
whitespace-delimited segments (maximal nonempty runs of non-space
bytes) before the terminating newline.  The flag records whether a
segment is currently open. -/
def segCount : List Nat → Bool → Nat
  | [], inTok => if inTok then 1 else 0
  | b :: rest, inTok =>
    if b = 10 then (if inTok then 1 else 0)
    else if b = 32 then (if inTok then 1 else 0) + segCount rest false
    else segCount rest true

/-- ASCII bytes of a string literal (inputs in the repository are
ASCII). -/
def strBytes (s : String) : List Nat := s.toList.map Char.toNat

/-! ### Helper lemmas about the tokenizer and the numeric conversions -/

theorem nextFrom_clean_space (tok : List Nat) :
    ∀ (buf rest : List Nat), (∀ b ∈ tok, b ≠ 32 ∧ b ≠ 10) →
      nextFrom buf (tok ++ 32 :: rest) = NextRes.ret (buf ++ tok) false rest := by
  induction tok with
  | nil => intro buf rest _; simp [nextFrom]
  | cons b t ih =>
    intro buf rest hcl
    obtain ⟨hb32, hb10⟩ := hcl b (List.mem_cons_self _ _)
    simp only [List.cons_append, nextFrom, List.append_eq, if_neg hb10, if_neg hb32]
    rw [ih (buf ++ [b]) rest (fun c hc => hcl c (List.mem_cons_of_mem _ hc))]
    simp

theorem nextFrom_clean_eol (tok : List Nat) :
    ∀ (buf rest : List Nat), (∀ b ∈ tok, b ≠ 32 ∧ b ≠ 10) →
      nextFrom buf (tok ++ 10 :: rest) = NextRes.ret (buf ++ tok) true (10 :: rest) := by
  induction tok with
  | nil => intro buf rest _; simp [nextFrom]
  | cons b t ih =>
    intro buf rest hcl
    obtain ⟨hb32, hb10⟩ := hcl b (List.mem_cons_self _ _)
    simp only [List.cons_append, nextFrom, List.append_eq, if_neg hb10, if_neg hb32]
    rw [ih (buf ++ [b]) rest (fun c hc => hcl c (List.mem_cons_of_mem _ hc))]
    simp

/-- Decimal value of a digit string, accumulated left to right exactly
as the `strconv` scan loop does. -/
def valFold : List Nat → Nat → Nat
  | [], n => n
  | c :: rest, n => valFold rest (n * 10 + (c - 48))

theorem valFold_le (s : List Nat) : ∀ n, n ≤ valFold s n := by
  induction s with
  | nil => intro n; exact Nat.le_refl n
  | cons c rest ih =>
    intro n
    have h1 : n ≤ n * 10 + (c - 48) := by omega
    exact le_trans h1 (ih _)

theorem parseUintLoop_digits (bit : Nat) (s : List Nat) :
    ∀ n, (∀ c ∈ s, digit? c = true) → n ≤ 2 ^ bit - 1 →
      parseUintLoop bit s n =
        if valFold s n ≤ 2 ^ bit - 1 then Except.ok (valFold s n)
        else Except.error NumError.outOfRange := by
  induction s with
  | nil =>
    intro n _ hn
    simp [parseUintLoop, valFold, hn]
  | cons c rest ih =>
    intro n hd hn
    have hc := hd c (List.mem_cons_self _ _)
    simp only [parseUintLoop, hc, if_true]
    by_cases h1 : 2 ^ bit - 1 < n * 10 + (c - 48)
    · rw [if_pos h1]
      have h2 := valFold_le rest (n * 10 + (c - 48))
      have h3 : valFold (c :: rest) n = valFold rest (n * 10 + (c - 48)) := rfl
      rw [if_neg (by omega)]
    · rw [if_neg h1]
      rw [ih _ (fun x hx => hd x (List.mem_cons_of_mem _ hx)) (by omega)]
      rfl

theorem parseUintLoop_stops_at_bad (bit : Nat) (ds : List Nat) (b : Nat) (tail : List Nat) :
    ∀ n, (∀ c ∈ ds, digit? c = true) → digit? b = false → valFold ds n ≤ 2 ^ bit - 1 →
      parseUintLoop bit (ds ++ b :: tail) n = Except.error NumError.malformed := by
  induction ds with
  | nil =>
    intro n _ hb _
    simp [parseUintLoop, hb]
  | cons c rest ih =>
    intro n hd hb hv
    have hc := hd c (List.mem_cons_self _ _)
    have h2 := valFold_le rest (n * 10 + (c - 48))
    have hv2 : valFold rest (n * 10 + (c - 48)) ≤ 2 ^ bit - 1 := hv
    simp only [List.cons_append, parseUintLoop, hc, if_true]
    rw [if_neg (by omega)]
    exact ih _ (fun x hx => hd x (List.mem_cons_of_mem _ hx)) hb hv2

theorem goParseUint_ne_nil (bit : Nat) (s : List Nat) (hne : s ≠ []) :
    goParseUint bit s = parseUintLoop bit s 0 := by
  cases s with
  | nil => exact absurd rfl hne
  | cons c r => rfl

theorem goParseUint_digits (bit : Nat) (s : List Nat) (hne : s ≠ [])
    (hd : ∀ c ∈ s, digit? c = true) :
    goParseUint bit s =
      if valFold s 0 ≤ 2 ^ bit - 1 then Except.ok (valFold s 0)
      else Except.error NumError.outOfRange := by
  rw [goParseUint_ne_nil bit s hne]
  exact parseUintLoop_digits bit s 0 hd (Nat.zero_le _)

theorem goParseUint_bad (bit : Nat) (ds : List Nat) (b : Nat) (tail : List Nat)
    (hd : ∀ c ∈ ds, digit? c = true) (hb : digit? b = false)
    (hv : valFold ds 0 ≤ 2 ^ bit - 1) :
    goParseUint bit (ds ++ b :: tail) = Except.error NumError.malformed := by
  have hne : ds ++ b :: tail ≠ [] := by cases ds <;> simp
  rw [goParseUint_ne_nil bit _ hne]
  exact parseUintLoop_stops_at_bad bit ds b tail 0 hd hb hv

theorem digit_not_sign (c : Nat) (hc : digit? c = true) : ¬(c = 43 ∨ c = 45) := by
  simp [digit?] at hc
  omega

theorem two_pow_cutoff (bit : Nat) (hbit : 1 ≤ bit) : 2 ^ (bit - 1) ≤ 2 ^ bit - 1 := by
  have h1 : 2 ^ bit = 2 * 2 ^ (bit - 1) := by
    conv_lhs => rw [show bit = (bit - 1) + 1 by omega]
    rw [pow_succ]
    ring
  have h2 : 1 ≤ 2 ^ (bit - 1) := Nat.one_le_two_pow
  omega

theorem goParseInt_digits (bit : Nat) (s : List Nat) (hbit : 1 ≤ bit) (hne : s ≠ [])
    (hd : ∀ c ∈ s, digit? c = true) :
    goParseInt bit s =
      if 2 ^ (bit - 1) ≤ valFold s 0 then Except.error NumError.outOfRange
      else Except.ok (valFold s 0 : Int) := by
  cases s with
  | nil => exact absurd rfl hne
  | cons c rest =>
    have hc := hd c (List.mem_cons_self _ _)
    have hsign := digit_not_sign c hc
    have hc45 : ¬(c = 45) := fun h => hsign (Or.inr h)
    have hcut := two_pow_cutoff bit hbit
    simp only [goParseInt, if_neg hsign]
    rw [goParseUint_digits bit (c :: rest) (by simp) hd]
    by_cases h1 : valFold (c :: rest) 0 ≤ 2 ^ bit - 1
    · rw [if_pos h1]
      simp only [if_neg hc45]
    · rw [if_neg h1]
      try rw [if_pos (by omega : 2 ^ (bit - 1) ≤ valFold (c :: rest) 0)]

theorem goParseInt_bad (bit : Nat) (ds : List Nat) (b : Nat) (tail : List Nat)
    (hd : ∀ c ∈ ds, digit? c = true) (hb : digit? b = false) (hb43 : b ≠ 43) (hb45 : b ≠ 45)
    (hv : valFold ds 0 ≤ 2 ^ bit - 1) :
    goParseInt bit (ds ++ b :: tail) = Except.error NumError.malformed := by
  cases ds with
  | nil =>
    have hsign : ¬(b = 43 ∨ b = 45) := by
      rintro (h | h)
      · exact hb43 h
      · exact hb45 h
    simp only [List.nil_append, goParseInt, if_neg hsign]
    have h : goParseUint bit (b :: tail) = Except.error NumError.malformed := by
      rw [goParseUint_ne_nil bit _ (by simp)]
      have h2 := parseUintLoop_stops_at_bad bit [] b tail 0 (by simp) hb hv
      simpa using h2

    rw [h]
  | cons c ds2 =>
    have hc := hd c (List.mem_cons_self _ _)
    have hsign := digit_not_sign c hc
    simp only [List.cons_append, goParseInt, if_neg hsign]
    have h : goParseUint bit (c :: (ds2 ++ b :: tail)) = Except.error NumError.malformed := by
      rw [show c :: (ds2 ++ b :: tail) = (c :: ds2) ++ b :: tail from rfl]
      exact goParseUint_bad bit (c :: ds2) b tail hd hb hv
    rw [h]

/-! ### Tokenizer enumeration on well-formed buffers -/

theorem joinTokens_length (toks : List (List Nat)) :
    toks.length ≤ (joinTokens toks).length := by
  induction toks with
  | nil => simp [joinTokens]
  | cons t ts ih =>
    cases ts with
    | nil => simp [joinTokens]
    | cons t2 ts2 =>
      simp only [joinTokens, List.length_append, List.length_cons] at *
      omega

theorem collectTokens_join (toks : List (List Nat)) :
    ∀ fuel, toks.length < fuel →
      (∀ t ∈ toks, t ≠ [] ∧ ∀ b ∈ t, b ≠ 32 ∧ b ≠ 10) →
      collectTokens fuel (joinTokens toks) = some toks := by
  induction toks with
  | nil =>
    intro fuel hf _
    obtain ⟨f, rfl⟩ : ∃ f, fuel = f + 1 := ⟨fuel - 1, by omega⟩
    simp [collectTokens, joinTokens, next, nextFrom]
  | cons t ts ih =>
    intro fuel hf hc
    obtain ⟨hne, hcl⟩ := hc t (List.mem_cons_self _ _)
    obtain ⟨f, rfl⟩ : ∃ f, fuel = f + 1 := ⟨fuel - 1, by omega⟩
    cases ts with
    | nil =>
      have h1 : next (joinTokens [t]) = NextRes.ret t true [10] := by
        show nextFrom [] (t ++ [10]) = _
        have h2 := nextFrom_clean_eol t [] [] hcl
        simpa using h2
      simp only [collectTokens, h1]
      rw [if_neg (by simp [hne])]
      obtain ⟨f2, rfl⟩ : ∃ f2, f = f2 + 1 := ⟨f - 1, by simp at hf; omega⟩
      simp [collectTokens, next, nextFrom]
    | cons t2 ts2 =>
      have h1 : next (joinTokens (t :: t2 :: ts2)) =
          NextRes.ret t false (joinTokens (t2 :: ts2)) := by
        show nextFrom [] (t ++ 32 :: joinTokens (t2 :: ts2)) = _
        simpa using nextFrom_clean_space t [] _ hcl
      simp only [collectTokens, h1]
      rw [if_neg (by simp)]
      rw [ih f (by simp at hf ⊢; omega) (fun u hu => hc u (List.mem_cons_of_mem _ hu))]
      rfl

/-! ### Claim theorems -/

/-- C1 failing input: a well-formed 52-field record whose 12th field is
`5` and whose 13th field is `7` (the remaining integer fields are `0`). -/
def c1fields : List (List Nat) :=
  [[49], strBytes ("(init)"), [83], [48], [48], [48], [48], [48], [48], [48], [48], [53], [55]]
    ++ List.replicate 39 [48]

/-- The bytes of the C1 record. -/
def c1data : List Nat := joinTokens c1fields

/-- C1: the claim says decoding writes the 13th token's value into
`CMajFlt` and the 12th's into `MajFlt`.  The code does not: the rule for
position 13 assigns to `sf.MajFlt` (a copy of rule 12), so on this
record `MajFlt` ends as 7 — the 13th token's value — and `CMajFlt`
remains 0 (every field omitted from the literal is its zero default),
contradicting the independent split-and-parse expectation
`MajFlt = 5 ∧ CMajFlt = 7`. -/
theorem c1_rule13_overwrites_majflt :
    parse c1data =
      ParseOutcome.ok { Pid := 1, Comm := strBytes ("(init)"), State := Sleeping, MajFlt := 7 } := by
  decide

/-- C2: the claim says `next()` never reads past the buffer bounds and
treats cursor = length as end-of-record.  In the code `isEOF` evaluates
`(*ss.data)[ss.cur]` unconditionally, so on the buffer `"42"` — final
field flush against end-of-buffer, no trailing space or newline — the
call runs off the end (Go runtime panic) instead of returning the token:
both the single call and the whole decode panic. -/
theorem c2_next_reads_past_end :
    next (strBytes ("42")) = NextRes.panic ∧ parse (strBytes ("42")) = ParseOutcome.panic := by
  exact ⟨by decide, by decide⟩

/-- The 52-field example record of the spec (§8), fields 14..52 zero. -/
def c3fields : List (List Nat) :=
  [[49], strBytes ("(init)"), [83], [48], [49], [49], [48], strBytes ("-1"),
    strBytes ("4210944"), strBytes ("10"), [48], [48], [48]]
    ++ List.replicate 39 [48]

/-- The bytes of the C3 record `"1 (init) S 0 1 1 0 -1 4210944 10 0 0 0 ...\n"`. -/
def c3data : List Nat := joinTokens c3fields

/-- The record the code actually produces on `c3data`. -/
def c3rec : StatField :=
  { Pid := 1, Comm := strBytes ("(init)"), State := Sleeping, PGrp := 1, Session := 1,
    TPGid := -1, TaskFlags := 4210944, MinFlt := 10 }

/-- C3 counterexample: on the spec's example record the code stores the
second token verbatim, parentheses included — `Comm` is `"(init)"`, not
the claimed `"init"`. -/
theorem c3_counterexample :
    parse c3data = ParseOutcome.ok c3rec ∧ c3rec.Comm ≠ strBytes ("init") := by
  exact ⟨by decide, by decide⟩

/-- C3 (amended): decoding the example record yields pid = 1,
comm = `"(init)"` (the raw token, surrounding parentheses kept),
state = Sleeping, ppid = 0 and taskFlags = 4210944. -/
theorem c3_example_decodes :
    parse c3data = ParseOutcome.ok c3rec ∧ c3rec.Pid = 1 ∧
      c3rec.Comm = strBytes ("(init)") ∧ c3rec.State = Sleeping ∧
      c3rec.PPid = 0 ∧ c3rec.TaskFlags = 4210944 := by
  exact ⟨by decide, by decide, by decide, by decide, by decide, by decide⟩

/-- C4 counterexample input: `"a  b\n"` — two consecutive spaces. -/
def c4data : List Nat := [97, 32, 32, 98, 10]

/-- C4 counterexample: on `"a  b\n"` the tokenizer returns three tokens
(`"a"`, the empty token between the two spaces, `"b"`) before the
no-more-tokens signal, but the buffer has only two whitespace-delimited
segments before the newline, so the claimed count equality fails. -/
theorem c4_counterexample :
    tokenizerTokens c4data = some [[97], [], [98]] ∧ segCount c4data false = 2 ∧
      (tokenizerTokens c4data).map List.length ≠ some (segCount c4data false) := by
  exact ⟨by decide, by decide, by decide⟩

/-- C4 (amended): on every buffer made of nonempty delimiter-free
tokens separated by SINGLE spaces and terminated by a newline, the
tokens returned before the no-more-tokens signal are exactly those
tokens — in particular the count matches, including the final token
that has no trailing delimiter. -/
theorem c4_token_count (toks : List (List Nat))
    (h : ∀ t ∈ toks, t ≠ [] ∧ ∀ b ∈ t, b ≠ 32 ∧ b ≠ 10) :
    tokenizerTokens (joinTokens toks) = some toks ∧
      (tokenizerTokens (joinTokens toks)).map List.length = some toks.length := by
  have h1 := joinTokens_length toks
  have h2 : collectTokens ((joinTokens toks).length + 2) (joinTokens toks) = some toks :=
    collectTokens_join toks _ (by omega) h
  refine ⟨h2, ?_⟩
  rw [show tokenizerTokens (joinTokens toks) = some toks from h2]
  rfl

/-- C4 witness: the amended count theorem on the concrete three-token
buffer `"1 (a) S\n"`. -/
theorem c4_witness :
    tokenizerTokens (joinTokens [[49], [40, 97, 41], [83]]) = some [[49], [40, 97, 41], [83]] :=
  (c4_token_count [[49], [40, 97, 41], [83]] (by decide)).1

/-- C5 counterexample token: `"4294967296x"` — the leading digits
already exceed 2^32 - 1, so the scan loop of `strconv` returns
`ErrRange` before ever seeing the non-numeric `'x'`. -/
def c5tok : List Nat := strBytes ("4294967296x")

/-- C5 counterexample: a token containing a non-numeric character fed
to the 32-bit signed conversion fails with `outOfRange`, not with the
`malformed` error the claim requires for every token with non-numeric
characters. -/
theorem c5_counterexample :
    int32Cover c5tok = Except.error NumError.outOfRange ∧
      NumError.outOfRange ≠ NumError.malformed := by
  exact ⟨rfl, by decide⟩

/-- C5 (amended): all six declared-width conversions enforce their
width — an all-digit token whose value reaches the width bound fails
with `outOfRange`, never silently truncating — and a token whose first
non-digit byte (not a sign byte) is reached while the preceding digits
still fit the unsigned range `2^w - 1` of the declared bit width `w`
fails with `malformed` (the signed covers feed `ParseUint` the same bit
width, so their syntax/range boundary is also `2^w - 1`).  A token
whose leading digits already exceed that range fails with `outOfRange`
even if later bytes are non-numeric. -/
theorem c5_covers_checked (s ds tail : List Nat) (b : Nat)
    (hs : ∀ c ∈ s, digit? c = true) (hsne : s ≠ [])
    (hds : ∀ c ∈ ds, digit? c = true) (hb : digit? b = false)
    (hb43 : b ≠ 43) (hb45 : b ≠ 45) :
    (2 ^ 15 ≤ valFold s 0 → int16Cover s = Except.error NumError.outOfRange) ∧
    (2 ^ 16 ≤ valFold s 0 → uint16Cover s = Except.error NumError.outOfRange) ∧
    (2 ^ 31 ≤ valFold s 0 → int32Cover s = Except.error NumError.outOfRange) ∧
    (2 ^ 32 ≤ valFold s 0 → uint32Cover s = Except.error NumError.outOfRange) ∧
    (2 ^ 63 ≤ valFold s 0 → int64Cover s = Except.error NumError.outOfRange) ∧
    (2 ^ 64 ≤ valFold s 0 → uint64Cover s = Except.error NumError.outOfRange) ∧
    (valFold ds 0 ≤ 2 ^ 16 - 1 →
      int16Cover (ds ++ b :: tail) = Except.error NumError.malformed) ∧
    (valFold ds 0 ≤ 2 ^ 16 - 1 →
      uint16Cover (ds ++ b :: tail) = Except.error NumError.malformed) ∧
    (valFold ds 0 ≤ 2 ^ 32 - 1 →
      int32Cover (ds ++ b :: tail) = Except.error NumError.malformed) ∧
    (valFold ds 0 ≤ 2 ^ 32 - 1 →
      uint32Cover (ds ++ b :: tail) = Except.error NumError.malformed) ∧
    (valFold ds 0 ≤ 2 ^ 64 - 1 →
      int64Cover (ds ++ b :: tail) = Except.error NumError.malformed) ∧
    (valFold ds 0 ≤ 2 ^ 64 - 1 →
      uint64Cover (ds ++ b :: tail) = Except.error NumError.malformed) := by
  have e15 : (2 : Nat) ^ 15 = 32768 := by norm_num
  have e16 : (2 : Nat) ^ 16 = 65536 := by norm_num
  have e31 : (2 : Nat) ^ 31 = 2147483648 := by norm_num
  have e32 : (2 : Nat) ^ 32 = 4294967296 := by norm_num
  have e63 : (2 : Nat) ^ 63 = 9223372036854775808 := by norm_num
  have e64 : (2 : Nat) ^ 64 = 18446744073709551616 := by norm_num
  refine ⟨?_, ?_, ?_, ?_, ?_, ?_, ?_, ?_, ?_, ?_, ?_, ?_⟩
  · intro h
    rw [show int16Cover s = goParseInt 16 s from rfl,
      goParseInt_digits 16 s (by norm_num) hsne hs, if_pos (by omega)]
  · intro h
    rw [show uint16Cover s = goParseUint 16 s from rfl,
      goParseUint_digits 16 s hsne hs, if_neg (by omega)]
  · intro h
    rw [show int32Cover s = goParseInt 32 s from rfl,
      goParseInt_digits 32 s (by norm_num) hsne hs, if_pos (by omega)]
  · intro h
    rw [show uint32Cover s = goParseUint 32 s from rfl,
      goParseUint_digits 32 s hsne hs, if_neg (by omega)]
  · intro h
    rw [show int64Cover s = goParseInt 64 s from rfl,
      goParseInt_digits 64 s (by norm_num) hsne hs, if_pos (by omega)]
  · intro h
    rw [show uint64Cover s = goParseUint 64 s from rfl,
      goParseUint_digits 64 s hsne hs, if_neg (by omega)]
  · intro h
    exact goParseInt_bad 16 ds b tail hds hb hb43 hb45 h
  · intro h
    exact goParseUint_bad 16 ds b tail hds hb h
  · intro h
    exact goParseInt_bad 32 ds b tail hds hb hb43 hb45 h
  · intro h
    exact goParseUint_bad 32 ds b tail hds hb h
  · intro h
    exact goParseInt_bad 64 ds b tail hds hb hb43 hb45 h
  · intro h
    exact goParseUint_bad 64 ds b tail hds hb h

/-- C5 witness: the amended theorem applied to the all-digit token
`"18446744073709551616"` (= 2^64) and to the malformed token
`"99999x"`, whose digit run `99999` exceeds the 16-bit widths but fits
the 32- and 64-bit widths. -/
theorem c5_witness :
    int32Cover (strBytes ("18446744073709551616")) = Except.error NumError.outOfRange ∧
      uint64Cover (strBytes ("18446744073709551616")) = Except.error NumError.outOfRange ∧
      int64Cover (strBytes ("99999x")) = Except.error NumError.malformed ∧
      int32Cover (strBytes ("99999x")) = Except.error NumError.malformed := by
  have h := c5_covers_checked (strBytes ("18446744073709551616")) (strBytes ("99999")) [] 120
    (by decide) (by decide) (by decide) (by decide) (by decide) (by decide)
  exact ⟨h.2.2.1 (by decide), h.2.2.2.2.2.1 (by decide),
    h.2.2.2.2.2.2.2.2.2.2.1 (by decide), h.2.2.2.2.2.2.2.2.1 (by decide)⟩

/-- C6: any field-level decode error aborts the whole record decode at
that field: whatever bytes follow the failing token (here: arbitrary
`rest`), `Parse` returns exactly that error, decodes no later position
and returns no record alongside the error (the `err` outcome carries no
`StatField`). -/
theorem c6_error_aborts (tok rest : List Nat) (pos : Nat) (sf : StatField) (e : NumError)
    (fuel : Nat) (hclean : ∀ b ∈ tok, b ≠ 32 ∧ b ≠ 10) (hne : tok ≠ [])
    (herr : fill tok pos sf = FillRes.err e) :
    parseLoop (fuel + 1) (tok ++ 32 :: rest) pos sf = ParseOutcome.err e := by
  have h1 : next (tok ++ 32 :: rest) = NextRes.ret tok false rest := by
    show nextFrom [] (tok ++ 32 :: rest) = _
    simpa using nextFrom_clean_space tok [] rest hclean
  simp [parseLoop, h1, hne, herr]

/-- C6 witness: the non-numeric pid token `"x"` aborts the decode with
`malformed` regardless of the rest of the buffer. -/
theorem c6_witness :
    parseLoop 6 ([120] ++ 32 :: [53, 10]) 1 {} = ParseOutcome.err NumError.malformed :=
  c6_error_aborts [120] [53, 10] 1 {} NumError.malformed 5 (by decide) (by decide) (by decide)

set_option maxHeartbeats 1000000 in
/-- C7: the position-3 conversion never returns an error on a nonempty
token: it stores the result of the source's `switch` on the first byte,
and that switch maps a known state code to the matching constant and
any other byte to the fallback — in both cases the stored value is the
`int8` conversion of the raw first byte, so no token can make it
fail. -/
theorem c7_state_rule_total (b : Nat) (rest : List Nat) (sf : StatField) :
    fill (b :: rest) 3 sf = FillRes.ok { sf with State := stateSwitch b } ∧
      stateSwitch b = toInt8 b := by
  constructor
  · rfl
  · simp only [stateSwitch, Running, Sleeping, DiskSleep, Zombie, Stopped, TracingStop,
      PagingWaking, Dead, Dead2633To313, Wakekill, Parked]
    split_ifs <;> omega

/-- C8: a position outside the schema range 1..52 has no entry in
`fieldParseMap`, so `fill` returns no error and the record is returned
unchanged — unknown trailing tokens never abort a decode. -/
theorem c8_unknown_position_ignored (pos : Nat) (tok : List Nat) (sf : StatField)
    (h : pos = 0 ∨ 52 < pos) :
    fill tok pos sf = FillRes.ok sf := by
  have hmap : fieldParseMap pos = none := by
    rcases h with h | h
    · subst h; rfl
    · obtain ⟨k, rfl⟩ : ∃ k, pos = k + 53 := ⟨pos - 53, by omega⟩
      rfl
  simp [fill, hmap]

/-- C8 witness: position 53 with a digit token leaves the zero record
untouched. -/
theorem c8_witness : fill [48] 53 {} = FillRes.ok {} :=
  c8_unknown_position_ignored 53 [48] {} (Or.inr (by decide))

/-- C9: the embedded `Stat.Parse` is a pure function of the byte
buffer — decoding the same immutable buffer twice is the same
computation, so the two outcomes are structurally equal (equal records
on success, the same error on failure). -/
theorem c9_parse_deterministic (data : List Nat) :
    parse data = parse data ∧
      (∀ r1 r2, parse data = ParseOutcome.ok r1 → parse data = ParseOutcome.ok r2 → r1 = r2) ∧
      (∀ e1 e2, parse data = ParseOutcome.err e1 → parse data = ParseOutcome.err e2 → e1 = e2) := by
  refine ⟨rfl, ?_, ?_⟩
  · intro r1 r2 h1 h2
    rw [h1] at h2
    injection h2
  · intro e1 e2 h1 h2
    rw [h1] at h2
    injection h2

/-- C10 input: `"1 (a) S  5 6 7\n"` — two consecutive spaces after the
third field, well before the 52nd. -/
def c10data : List Nat := strBytes ("1 (a) S  5 6 7\n")

/-- C10: at the second of two consecutive spaces `next()` returns the
empty token with a nil error (not `erreof`); the driver, which ignores
the error value and stops only on an empty token, breaks there and
`Parse` returns success with a record whose fields past position 3 all
hold their zero values — tokens `5 6 7` are never decoded. -/
theorem c10_double_space_truncates :
    next (strBytes (" 5 6 7\n")) = NextRes.ret [] false (strBytes ("5 6 7\n")) ∧
      parse c10data = ParseOutcome.ok { Pid := 1, Comm := [40, 97, 41], State := Sleeping } := by
  exact ⟨by decide, by decide⟩

end ProcStat
